import Mathlib

/-!
Shallow embedding of the Hanuman voice-assistant core (`src/app.py`).

Text is modelled as `List Char`.  Python floats are modelled as exact
rationals (`Rat`); the fuzzy threshold `0.65` is `13/20`.  Network calls
(speech-to-text, language model, voice synthesis) are modelled by passing
their outcomes as explicit parameters, so every function here is the pure
decision logic of the corresponding Python function.
-/

set_option maxRecDepth 40000

namespace Hanuman

/-- ASCII lowercasing, as applied by Python `str.lower` to the inputs this
system handles (trigger phrases are lowercase ASCII or Devanagari, which has
no case distinction). -/
def pyLower (c : Char) : Char :=
  if 'A' ≤ c ∧ c ≤ 'Z' then Char.ofNat (c.toNat + 32) else c

/-- ASCII uppercasing of a single character, used by `str.capitalize`. -/
def pyUpper (c : Char) : Char :=
  if 'a' ≤ c ∧ c ≤ 'z' then Char.ofNat (c.toNat - 32) else c

/-- The whitespace characters stripped by Python `str.strip()` (ASCII part). -/
def isPySpace (c : Char) : Bool :=
  c == ' ' || c == '\t' || c == '\n' || c == '\r' || c == Char.ofNat 11 || c == Char.ofNat 12

/-- Python `str.strip()`: drop whitespace from both ends. -/
def pyStrip (s : List Char) : List Char :=
  ((s.dropWhile isPySpace).reverse.dropWhile isPySpace).reverse

/-- `text.lower().strip()` as computed at the top of `identify_command`. -/
def pyNormalize (text : List Char) : List Char :=
  pyStrip (text.map pyLower)

/-- `startsWithL p t`: `t` begins with `p`. -/
def startsWithL : List Char → List Char → Bool
  | [], _ => true
  | _ :: _, [] => false
  | p :: ps, c :: cs => p == c && startsWithL ps cs

/-- `hasSub p t`: Python `p in t`, contiguous substring occurrence. -/
def hasSub (p : List Char) : List Char → Bool
  | [] => startsWithL p []
  | c :: cs => startsWithL p (c :: cs) || hasSub p cs

/-- Length of the common run of equal characters at the heads of two lists. -/
def matchRunLen : List Char → List Char → Nat
  | a :: xs, b :: ys => if a == b then matchRunLen xs ys + 1 else 0
  | _, _ => 0

/-- `difflib.SequenceMatcher.find_longest_match` on whole strings (no junk, no
autojunk — faithful to CPython for second arguments shorter than 200
characters): the longest common contiguous block, ties broken by the earliest
start in `a`, then the earliest start in `b`.  Returns `(i, j, size)`. -/
def findLongestMatch (a b : List Char) : Nat × Nat × Nat :=
  (List.range a.length).foldl (fun best i =>
    (List.range b.length).foldl (fun best j =>
      let k := matchRunLen (a.drop i) (b.drop j)
      if k > best.2.2 then (i, j, k) else best) best) (0, 0, 0)

/-- Total size of all matching blocks found by the Ratcliff/Obershelp
recursion of `difflib.SequenceMatcher.get_matching_blocks`, fuelled to make
structural termination evident; `a.length + b.length` fuel always suffices. -/
def matchSumFuel : Nat → List Char → List Char → Nat
  | 0, _, _ => 0
  | fuel + 1, a, b =>
    let m := findLongestMatch a b
    if m.2.2 = 0 then 0
    else
      matchSumFuel fuel (a.take m.1) (b.take m.2.1) + m.2.2 +
        matchSumFuel fuel (a.drop (m.1 + m.2.2)) (b.drop (m.2.1 + m.2.2))

/-- Sum of the sizes of all matching blocks between `a` and `b`. -/
def matchSum (a b : List Char) : Nat :=
  matchSumFuel (a.length + b.length + 1) a b

/-- `difflib.SequenceMatcher(None, a, b).ratio()`: `2*M / (len(a)+len(b))`,
and `1.0` when both strings are empty.  The quotient is built with `mkRat`,
which is the same rational number as the division. -/
def ratio (a b : List Char) : Rat :=
  if a.length + b.length = 0 then 1
  else mkRat (2 * matchSum a b) (a.length + b.length)

/-- The fuzzy acceptance threshold `0.65` of `identify_command`, as the exact
rational `13/20`. -/
def fuzzyThreshold : Rat := mkRat 13 20

/-- Trigger phrases of the `wake` tag. -/
def wakeKws : List (List Char) :=
  ["hanuman", "anuman", "human", "naman", "hello hanuman",
   "hey hanuman", "हनुमान", "jai shri ram"].map String.toList

/-- Trigger phrases of the `aagya` tag. -/
def aagyaKws : List (List Char) :=
  ["aagya", "chat", "talk", "anya", "bat", "आज्ञा", "baat"].map String.toList

/-- Trigger phrases of the `hasya` tag. -/
def hasyaKws : List (List Char) :=
  ["hasya", "joke", "funny", "laugh", "chutkule", "hasa", "हास्य"].map String.toList

/-- Trigger phrases of the `yudha` tag. -/
def yudhaKws : List (List Char) :=
  ["yudha", "game", "play", "fight", "war", "yuda", "युद्ध", "khel"].map String.toList

/-- Trigger phrases of the `gandharva` tag. -/
def gandharvaKws : List (List Char) :=
  ["gandharva", "music", "song", "gana", "play song", "dj", "गंधर्व"].map String.toList

/-- Trigger phrases of the `khoj` tag. -/
def khojKws : List (List Char) :=
  ["khoj", "search", "find", "google", "dhoondo", "खोज"].map String.toList

/-- Trigger phrases of the `exit` tag. -/
def exitKws : List (List Char) :=
  ["exit", "stop", "back", "bye", "band", "ruk", "बंद"].map String.toList

/-- The command vocabulary `VALID_COMMANDS` of `app.py`, in declaration
order. -/
def VALID_COMMANDS : List (String × List (List Char)) :=
  [("wake", wakeKws), ("aagya", aagyaKws), ("hasya", hasyaKws), ("yudha", yudhaKws),
   ("gandharva", gandharvaKws), ("khoj", khojKws), ("exit", exitKws)]

/-- Every trigger phrase of the vocabulary, over all tags. -/
def allTriggerKeywords : List (List Char) :=
  VALID_COMMANDS.foldr (fun ck acc => ck.2 ++ acc) []

/-- `identify_command` of `app.py`: empty text short-circuits to
`(none, 0.0)`; otherwise an exact substring pass over the vocabulary in
declaration order returns `(tag, 1.0)` at the first hit, and only failing
that a fuzzy pass keeps the best `SequenceMatcher` ratio strictly above
`0.65` and strictly above the best so far. -/
def identify_command (text : List Char) : Option String × Rat :=
  if text = [] then (none, 0)
  else
    let text_lower := pyNormalize text
    match VALID_COMMANDS.find? (fun ck => ck.2.any (fun k => hasSub k text_lower)) with
    | some ck => (some ck.1, 1)
    | none =>
      VALID_COMMANDS.foldl (fun best ck =>
        ck.2.foldl (fun best kw =>
          let score := ratio kw text_lower
          if score > fuzzyThreshold ∧ score > best.2 then (some ck.1, score) else best)
          best)
        (none, 0)

/-- `transcribe_smart` of `app.py`, after the network race has been resolved:
`groqKey` is whether `GROQ_API_KEY` is set, and `turbo_text` / `large_text`
are the (hallucination-filtered) results of the two `call_groq_whisper`
calls.  Missing key returns the empty transcript; a recognized command in the
turbo transcript returns it immediately; otherwise the longer transcript
wins, with the turbo transcript returned when the lengths are equal. -/
def transcribe_smart (groqKey : Bool) (turbo_text large_text : List Char) : List Char :=
  if !groqKey then []
  else
    match (identify_command turbo_text).1 with
    | some _ => turbo_text
    | none => if large_text.length > turbo_text.length then large_text else turbo_text

/-- Outcome of the ElevenLabs HTTP call in `generate_tts_elevenlabs`:
the credential may be missing, the request may raise, or it returns a
status code. -/
inductive ElevenOutcome
  | noKey
  | transportError
  | response (status : Nat)
  deriving DecidableEq

/-- `status != 200`, missing key, or exception: the branches of
`generate_tts_elevenlabs` that yield `None`. -/
def elevenFailed : ElevenOutcome → Bool
  | .noKey => true
  | .transportError => true
  | .response status => status != 200

/-- Cache filename pattern `eleven_{int(time.time())}.mp3` served under
`/audio/`. -/
def eleven_path (t : Nat) : String :=
  "/audio/eleven_" ++ toString t ++ ".mp3"

/-- Cache filename pattern `edge_{int(time.time())}.mp3` served under
`/audio/`. -/
def edge_path (t : Nat) : String :=
  "/audio/edge_" ++ toString t ++ ".mp3"

/-- `generate_tts_elevenlabs` of `app.py`: `None` without a key, a reference
to an `eleven_`-named cache file on HTTP 200, `None` on any other status or
exception.  `t` is `int(time.time())` at the call. -/
def generate_tts_elevenlabs (t : Nat) (o : ElevenOutcome) : Option String :=
  match o with
  | .noKey => none
  | .transportError => none
  | .response status => if status = 200 then some (eleven_path t) else none

/-- `generate_tts` of `app.py`: try ElevenLabs first; on `None` fall back to
Edge TTS (whose outcome is `edgeOk`, with `tEdge` the timestamp of its
filename); `none` when both fail. -/
def generate_tts (tEleven tEdge : Nat) (o : ElevenOutcome) (edgeOk : Bool) : Option String :=
  match generate_tts_elevenlabs tEleven o with
  | some url => some url
  | none => if edgeOk then some (edge_path tEdge) else none

/-- Outcome of the chat-completions HTTP call in `chat_llm`: any transport
error, timeout, bad status or malformed JSON body ends in the bare `except`;
only a well-formed response yields content. -/
inductive LLMOutcome
  | transportError
  | timeout
  | badStatus (status : Nat)
  | malformed
  | ok (content : String)
  deriving DecidableEq

/-- The outcomes on which `chat_llm`'s `try` block raises. -/
def llmFailed : LLMOutcome → Bool
  | .ok _ => false
  | _ => true

/-- Python `str.strip()` on a `String`. -/
def pyStripStr (s : String) : String :=
  String.mk (pyStrip s.toList)

/-- `chat_llm` of `app.py`, with the provider call's outcome made explicit:
on success the content is `.strip()`ped and returned; every failure is
swallowed and replaced by the fixed string `"System offline."`. -/
def chat_llm : LLMOutcome → String
  | .ok content => pyStripStr content
  | _ => "System offline."

/-- Python `str.capitalize()` (ASCII): first character uppercased, the rest
lowercased. -/
def pyCapitalize (s : String) : String :=
  match s.toList with
  | [] => ""
  | c :: cs => String.mk (pyUpper c :: cs.map pyLower)

/-- The list `["aagya", "hasya", "yudha", "gandharva", "khoj"]` tested by the
mode-switch branch of `process_input`. -/
def switchTags : List String :=
  ["aagya", "hasya", "yudha", "gandharva", "khoj"]

/-- The base system prompt of `process_input`. -/
def basePrompt : String :=
  "You are Hanuman. Be concise, wise, and helpful. Use 1 sentence."

/-- `process_input` of `app.py`, with the global `user_state["mode"]` passed
in and returned explicitly, and the language-model provider modelled by an
oracle mapping the system prompt used in this call to the call's outcome.
Returns the new mode together with the optional reply. -/
def process_input (oracle : String → LLMOutcome) (mode : String) (text : List Char) :
    String × Option String :=
  let cmd := (identify_command text).1
  if cmd = some "exit" then ("idle", some "Stopping.")
  else if cmd = some "wake" then ("active", some "Jai Shri Ram. I am ready.")
  else if mode = "idle" then (mode, none)
  else
    let modeLogic : String × Option String :=
      if mode = "aagya" then (mode, some (chat_llm (oracle basePrompt)))
      else if mode = "hasya" then (mode, some (chat_llm (oracle (basePrompt ++ " Tell a joke."))))
      else if mode = "khoj" then (mode, some (chat_llm (oracle (basePrompt ++ " Search and answer."))))
      else (mode, some (chat_llm (oracle basePrompt)))
    match cmd with
    | some c => if c ∈ switchTags then (c, some (pyCapitalize c ++ " mode.")) else modeLogic
    | none => modeLogic

/-- The modes enumerated by the spec's data model. -/
def ModeSet : List String :=
  ["idle", "active", "aagya", "hasya", "yudha", "gandharva", "khoj"]

/-- Mode reached from the initial `idle` state after a sequence of
`process_input` calls (the reply of each call is discarded; only the global
mode is threaded through). -/
def runSession (oracle : String → LLMOutcome) (texts : List (List Char)) : String :=
  texts.foldl (fun m t => (process_input oracle m t).1) "idle"

/-- The command tags in the declaration order of `VALID_COMMANDS`. -/
def tagOrder : List String :=
  ["wake", "aagya", "hasya", "yudha", "gandharva", "khoj", "exit"]

/-- Spec-side predicate: some trigger phrase of `tag` occurs as a substring
of the normalized (lowercased, trimmed) text. -/
def hasTriggerSub (tag : String) (text : List Char) : Bool :=
  if tag = "wake" then wakeKws.any (fun k => hasSub k (pyNormalize text))
  else if tag = "aagya" then aagyaKws.any (fun k => hasSub k (pyNormalize text))
  else if tag = "hasya" then hasyaKws.any (fun k => hasSub k (pyNormalize text))
  else if tag = "yudha" then yudhaKws.any (fun k => hasSub k (pyNormalize text))
  else if tag = "gandharva" then gandharvaKws.any (fun k => hasSub k (pyNormalize text))
  else if tag = "khoj" then khojKws.any (fun k => hasSub k (pyNormalize text))
  else if tag = "exit" then exitKws.any (fun k => hasSub k (pyNormalize text))
  else false

/-- A concrete oracle for witnesses: the provider always fails. -/
def offlineOracle : String → LLMOutcome := fun _ => LLMOutcome.transportError

/-- Claim C1 (counterexample): The claim says that on equal lengths
`transcribe_smart` returns the large model's transcript; but with turbo
transcript `"qq"` (no recognized command) and large transcript `"ww"` of the
same length, the code returns the turbo transcript. -/
theorem C1_tie_counterexample :
    (identify_command "qq".toList).1 = none ∧
    ("ww".toList).length = ("qq".toList).length ∧
    transcribe_smart true "qq".toList "ww".toList ≠ "ww".toList := by
  decide

/-- Claim C1 (amended): When the turbo transcript yields no recognized
command, `transcribe_smart` returns whichever transcript is strictly longer,
and on equal lengths it returns the turbo (fast) transcript. -/
theorem C1_longer_fallback (turbo large : List Char)
    (h : (identify_command turbo).1 = none) :
    (turbo.length < large.length → transcribe_smart true turbo large = large) ∧
    (large.length < turbo.length → transcribe_smart true turbo large = turbo) ∧
    (turbo.length = large.length → transcribe_smart true turbo large = turbo) := by
  have hk : transcribe_smart true turbo large =
      if turbo.length < large.length then large else turbo := by
    simp [transcribe_smart, h]
  refine ⟨fun hl => ?_, fun hl => ?_, fun hl => ?_⟩ <;> rw [hk]
  · rw [if_pos hl]
  · rw [if_neg (by omega)]
  · rw [if_neg (by omega)]

/-- Claim C1 (witness): the amended theorem at turbo `"qq"`, large `"www"`. -/
theorem C1_longer_fallback_witness :
    (identify_command "qq".toList).1 = none ∧
    transcribe_smart true "qq".toList "www".toList = "www".toList :=
  ⟨by decide, (C1_longer_fallback "qq".toList "www".toList (by decide)).1 (by decide)⟩

/-- Claim C3: If the turbo transcript yields a recognized command,
`transcribe_smart` returns the turbo transcript, whatever the large
transcript is: the large result is never consulted and never appears in
(i.e. never influences) the returned text. -/
theorem C3_turbo_short_circuit (turbo : List Char)
    (h : ((identify_command turbo).1).isSome = true) :
    ∀ large : List Char, transcribe_smart true turbo large = turbo := by
  intro large
  obtain ⟨c, hc⟩ := Option.isSome_iff_exists.1 h
  simp [transcribe_smart, hc]

/-- Claim C3 (witness): turbo `"exit"` wins against an arbitrary longer large
transcript. -/
theorem C3_turbo_short_circuit_witness :
    ((identify_command "exit".toList).1).isSome = true ∧
    transcribe_smart true "exit".toList "a much longer large transcript".toList =
      "exit".toList :=
  ⟨by decide, C3_turbo_short_circuit "exit".toList (by decide) _⟩

/-- Claim C6: For every prior mode, a text recognized as `exit` moves the
session to `idle` with reply `"Stopping."`, and a text recognized as `wake`
moves it to `active` with the fixed greeting — independent of the prior
mode, so repeating the command leaves the mode fixed. -/
theorem C6_global_commands (oracle : String → LLMOutcome) (mode : String) (text : List Char) :
    ((identify_command text).1 = some "exit" →
      process_input oracle mode text = ("idle", some "Stopping.")) ∧
    ((identify_command text).1 = some "wake" →
      process_input oracle mode text = ("active", some "Jai Shri Ram. I am ready.")) := by
  constructor <;> intro h <;> simp [process_input, h]

/-- Claim C6 (witness): `"exit"` from mode `hasya` and `"hanuman"` (a wake
trigger) from mode `hasya`. -/
theorem C6_global_commands_witness :
    ((identify_command "exit".toList).1 = some "exit" ∧
      process_input offlineOracle "hasya" "exit".toList = ("idle", some "Stopping.")) ∧
    ((identify_command "hanuman".toList).1 = some "wake" ∧
      process_input offlineOracle "hasya" "hanuman".toList =
        ("active", some "Jai Shri Ram. I am ready.")) :=
  ⟨⟨by decide, (C6_global_commands offlineOracle "hasya" "exit".toList).1 (by decide)⟩,
   ⟨by decide, (C6_global_commands offlineOracle "hasya" "hanuman".toList).2 (by decide)⟩⟩

/-- Claim C8: Every failing outcome of the language-model provider call
(transport error, timeout, bad status, malformed body) makes `chat_llm`
return the fixed fallback `"System offline."`. -/
theorem C8_llm_offline_fallback :
    ∀ o : LLMOutcome, llmFailed o = true → chat_llm o = "System offline." := by
  intro o ho
  cases o <;> first | rfl | simp [llmFailed] at ho

/-- Claim C8 (witness): a timeout yields the fallback string. -/
theorem C8_llm_offline_fallback_witness :
    llmFailed LLMOutcome.timeout = true ∧ chat_llm LLMOutcome.timeout = "System offline." :=
  ⟨rfl, C8_llm_offline_fallback LLMOutcome.timeout rfl⟩

/-- Claim C9: When the ElevenLabs call fails (missing key, exception, or
non-200 status), `generate_tts` returns the Edge-TTS-named cache reference
if the secondary succeeds, and `none` if the secondary fails too. -/
theorem C9_tts_fallback (tEleven tEdge : Nat) (o : ElevenOutcome) (edgeOk : Bool)
    (h : elevenFailed o = true) :
    (edgeOk = true → generate_tts tEleven tEdge o edgeOk = some (edge_path tEdge)) ∧
    (edgeOk = false → generate_tts tEleven tEdge o edgeOk = none) := by
  have hE : generate_tts_elevenlabs tEleven o = none := by
    cases o with
    | noKey => rfl
    | transportError => rfl
    | response status =>
      simp only [elevenFailed, bne_iff_ne, ne_eq] at h
      simp [generate_tts_elevenlabs, h]
  constructor <;> intro he <;> simp [generate_tts, hE, he]

/-- Python `str.lower` fixes whitespace characters. -/
theorem pyLower_of_space {c : Char} (h : isPySpace c = true) : pyLower c = c := by
  simp only [isPySpace, Bool.or_eq_true, beq_iff_eq] at h
  rcases h with (((((h | h) | h) | h) | h) | h) <;> subst h <;> decide

/-- Normalizing an all-whitespace text yields the empty text. -/
theorem pyNormalize_of_spaces {text : List Char} (h : ∀ c ∈ text, isPySpace c = true) :
    pyNormalize text = [] := by
  have hm : text.map pyLower = text := by
    rw [List.map_congr_left fun c hc => pyLower_of_space (h c hc)]
    simp
  simp only [pyNormalize, pyStrip, hm, List.dropWhile_eq_nil_iff.2 h, List.reverse_nil,
    List.dropWhile_nil]

/-- Claim C4: Every empty or whitespace-only input makes `identify_command`
return `(none, 0.0)`. -/
theorem C4_whitespace_none (text : List Char) (h : ∀ c ∈ text, isPySpace c = true) :
    identify_command text = (none, 0) := by
  by_cases ht : text = []
  · subst ht; rfl
  · have hnorm : pyNormalize text = [] := pyNormalize_of_spaces h
    unfold identify_command
    rw [if_neg ht, hnorm]
    decide

/-- Claim C4 (witness): two spaces. -/
theorem C4_whitespace_none_witness :
    (∀ c ∈ ("  ".toList), isPySpace c = true) ∧ identify_command "  ".toList = (none, 0) :=
  ⟨by decide, C4_whitespace_none "  ".toList (by decide)⟩

/-- Claim C2 (counterexample): The text `"exitzzzzz"` has fuzzy ratio at most
`0.65` against every trigger phrase (its best is `8/13` against `"exit"`),
yet `identify_command` does not return `(none, 0.0)`: the exact substring
pass fires on the contained trigger `"exit"`. -/
theorem C2_threshold_counterexample :
    (∀ kw ∈ allTriggerKeywords, ratio kw "exitzzzzz".toList ≤ fuzzyThreshold) ∧
    identify_command "exitzzzzz".toList ≠ (none, 0) := by
  decide

/-- One keyword list leaves the running best untouched when every ratio is
below the threshold. -/
theorem fuzzy_fold_inner (tl : List Char) (c : String) (kws : List (List Char))
    (b : Option String × Rat) (h : ∀ kw ∈ kws, ratio kw tl ≤ fuzzyThreshold) :
    kws.foldl (fun best kw =>
      let score := ratio kw tl
      if score > fuzzyThreshold ∧ score > best.2 then (some c, score) else best) b = b := by
  induction kws generalizing b with
  | nil => rfl
  | cons kw kws ih =>
    simp only [List.foldl_cons]
    rw [if_neg fun hc => absurd hc.1 (not_lt.2 (h kw (List.mem_cons_self kw kws)))]
    exact ih b fun k hk => h k (List.mem_cons_of_mem kw hk)

/-- The whole fuzzy pass leaves the initial `(none, 0.0)` untouched when
every ratio is below the threshold. -/
theorem fuzzy_fold_outer (tl : List Char) (l : List (String × List (List Char)))
    (b : Option String × Rat) (h : ∀ ck ∈ l, ∀ kw ∈ ck.2, ratio kw tl ≤ fuzzyThreshold) :
    l.foldl (fun best ck =>
      ck.2.foldl (fun best kw =>
        let score := ratio kw tl
        if score > fuzzyThreshold ∧ score > best.2 then (some ck.1, score) else best) best)
      b = b := by
  induction l generalizing b with
  | nil => rfl
  | cons ck l ih =>
    simp only [List.foldl_cons]
    rw [fuzzy_fold_inner tl ck.1 ck.2 b (h ck (List.mem_cons_self ck l))]
    exact ih b fun e he kw hkw => h e (List.mem_cons_of_mem ck he) kw hkw

/-- Claim C2 (amended): For every input text whose normalized form contains no
trigger phrase as a substring and whose fuzzy ratio against every trigger
phrase is at most `0.65`, `identify_command` returns `(none, 0.0)`. -/
theorem C2_below_threshold_none (text : List Char)
    (hexact : ∀ ck ∈ VALID_COMMANDS, ∀ kw ∈ ck.2, hasSub kw (pyNormalize text) = false)
    (hfuzzy : ∀ ck ∈ VALID_COMMANDS, ∀ kw ∈ ck.2, ratio kw (pyNormalize text) ≤ fuzzyThreshold) :
    identify_command text = (none, 0) := by
  by_cases ht : text = []
  · subst ht; rfl
  · simp only [identify_command]
    rw [if_neg ht]
    have hfind : VALID_COMMANDS.find?
        (fun ck => ck.2.any (fun k => hasSub k (pyNormalize text))) = none := by
      refine List.find?_eq_none.2 fun ck hck hany => ?_
      rw [List.any_eq_true] at hany
      obtain ⟨kw, hkw, hsub⟩ := hany
      rw [hexact ck hck kw hkw] at hsub
      cases hsub
    rw [hfind]
    exact fuzzy_fold_outer (pyNormalize text) VALID_COMMANDS (none, 0) hfuzzy

/-- Claim C2 (amended, witness): the text `"zzz"` shares nothing with any
trigger phrase. -/
theorem C2_below_threshold_none_witness :
    (∀ ck ∈ VALID_COMMANDS, ∀ kw ∈ ck.2, hasSub kw (pyNormalize "zzz".toList) = false) ∧
    identify_command "zzz".toList = (none, 0) :=
  ⟨by decide, C2_below_threshold_none "zzz".toList (by decide) (by decide)⟩

/-- Claim C10: `process_input` leaves the mode unchanged unless the
recognized command is `exit` or `wake`, or the mode is not `idle` and the
command is a mode-switch tag: in particular every delegation to the language
model and every ignored input in `idle` mode keeps the mode intact. -/
theorem C10_mode_frame (oracle : String → LLMOutcome) (mode : String) (text : List Char)
    (h1 : (identify_command text).1 ≠ some "exit")
    (h2 : (identify_command text).1 ≠ some "wake")
    (h3 : mode = "idle" ∨ (identify_command text).1 ∉ switchTags.map some) :
    (process_input oracle mode text).1 = mode := by
  simp only [process_input]
  rw [if_neg h1, if_neg h2]
  by_cases hm : mode = "idle"
  · rw [if_pos hm]
  · rw [if_neg hm]
    rcases h3 with h3 | h3
    · exact absurd h3 hm
    · cases hc : (identify_command text).1 with
      | none => split_ifs <;> rfl
      | some c =>
        rw [hc] at h3
        dsimp only
        rw [if_neg fun hcs => h3 (List.mem_map_of_mem some hcs)]
        split_ifs <;> rfl

/-- Claim C10 (witness): unmatched text `"pppp"` in mode `active` leaves the
mode at `active`. -/
theorem C10_mode_frame_witness :
    (identify_command "pppp".toList).1 ≠ some "exit" ∧
    (identify_command "pppp".toList).1 ∉ switchTags.map some ∧
    (process_input offlineOracle "active" "pppp".toList).1 = "active" :=
  ⟨by decide, by decide,
    C10_mode_frame offlineOracle "active" "pppp".toList (by decide) (by decide)
      (Or.inr (by decide))⟩

/-- One `process_input` step keeps the mode inside the enumerated set. -/
theorem process_input_mode_mem (oracle : String → LLMOutcome) (m : String) (t : List Char)
    (hm : m ∈ ModeSet) : (process_input oracle m t).1 ∈ ModeSet := by
  simp only [process_input]
  split
  · decide
  · split
    · decide
    · split
      · exact hm
      · split
        · split
          · rename_i c hcs
            simp only [switchTags, List.mem_cons, List.not_mem_nil, or_false] at hcs
            rcases hcs with rfl | rfl | rfl | rfl | rfl <;> decide
          · split_ifs <;> exact hm
        · split_ifs <;> exact hm

/-- Claim C7: Starting from `idle`, after any sequence of `process_input`
calls with arbitrary texts the session mode stays in the enumerated set
`{idle, active, aagya, hasya, yudha, gandharva, khoj}`. -/
theorem C7_mode_invariant (oracle : String → LLMOutcome) (texts : List (List Char)) :
    runSession oracle texts ∈ ModeSet := by
  suffices h : ∀ m ∈ ModeSet,
      texts.foldl (fun m t => (process_input oracle m t).1) m ∈ ModeSet from
    h "idle" (by decide)
  induction texts with
  | nil => exact fun m hm => hm
  | cons t ts ih =>
    exact fun m hm => ih ((process_input oracle m t).1) (process_input_mode_mem oracle m t hm)

/-- A tag with a matching trigger phrase is one of the seven vocabulary
tags. -/
theorem mem_tagOrder_of_hasTriggerSub {c : String} {text : List Char}
    (h : hasTriggerSub c text = true) : c ∈ tagOrder := by
  unfold hasTriggerSub at h
  split_ifs at h with h1 h2 h3 h4 h5 h6 h7
  · subst h1; decide
  · subst h2; decide
  · subst h3; decide
  · subst h4; decide
  · subst h5; decide
  · subst h6; decide
  · subst h7; decide

/-- Claim C5: Whenever trigger phrases of two (or more) distinct tags occur
as substrings of the normalized text, `identify_command` returns the first
matching tag in the vocabulary's declaration order
(wake, aagya, hasya, yudha, gandharva, khoj, exit) with confidence `1.0`. -/
theorem C5_first_declaration_order (text : List Char)
    (h : ∃ c1 c2 : String, c1 ≠ c2 ∧ hasTriggerSub c1 text = true ∧
      hasTriggerSub c2 text = true) :
    identify_command text =
      ((tagOrder.filter (fun tg => hasTriggerSub tg text)).head?, 1) := by
  obtain ⟨c1, c2, -, h1, -⟩ := h
  have hmem : c1 ∈ tagOrder := mem_tagOrder_of_hasTriggerSub h1
  simp only [tagOrder, List.mem_cons, List.not_mem_nil, or_false] at hmem
  have htne : text ≠ [] := by
    rintro rfl
    rcases hmem with rfl | rfl | rfl | rfl | rfl | rfl | rfl <;> exact absurd h1 (by decide)
  have q1 : hasTriggerSub "wake" text
      = wakeKws.any (fun k => hasSub k (pyNormalize text)) := rfl
  have q2 : hasTriggerSub "aagya" text
      = aagyaKws.any (fun k => hasSub k (pyNormalize text)) := rfl
  have q3 : hasTriggerSub "hasya" text
      = hasyaKws.any (fun k => hasSub k (pyNormalize text)) := rfl
  have q4 : hasTriggerSub "yudha" text
      = yudhaKws.any (fun k => hasSub k (pyNormalize text)) := rfl
  have q5 : hasTriggerSub "gandharva" text
      = gandharvaKws.any (fun k => hasSub k (pyNormalize text)) := rfl
  have q6 : hasTriggerSub "khoj" text
      = khojKws.any (fun k => hasSub k (pyNormalize text)) := rfl
  have q7 : hasTriggerSub "exit" text
      = exitKws.any (fun k => hasSub k (pyNormalize text)) := rfl
  simp only [identify_command]
  rw [if_neg htne]
  cases hb1 : wakeKws.any (fun k => hasSub k (pyNormalize text)) with
  | true => simp [VALID_COMMANDS, tagOrder, List.find?, List.filter, q1, hb1]
  | false =>
  cases hb2 : aagyaKws.any (fun k => hasSub k (pyNormalize text)) with
  | true => simp [VALID_COMMANDS, tagOrder, List.find?, List.filter, q1, q2, hb1, hb2]
  | false =>
  cases hb3 : hasyaKws.any (fun k => hasSub k (pyNormalize text)) with
  | true => simp [VALID_COMMANDS, tagOrder, List.find?, List.filter, q1, q2, q3, hb1, hb2, hb3]
  | false =>
  cases hb4 : yudhaKws.any (fun k => hasSub k (pyNormalize text)) with
  | true =>
    simp [VALID_COMMANDS, tagOrder, List.find?, List.filter, q1, q2, q3, q4, hb1, hb2, hb3, hb4]
  | false =>
  cases hb5 : gandharvaKws.any (fun k => hasSub k (pyNormalize text)) with
  | true =>
    simp [VALID_COMMANDS, tagOrder, List.find?, List.filter, q1, q2, q3, q4, q5,
      hb1, hb2, hb3, hb4, hb5]
  | false =>
  cases hb6 : khojKws.any (fun k => hasSub k (pyNormalize text)) with
  | true =>
    simp [VALID_COMMANDS, tagOrder, List.find?, List.filter, q1, q2, q3, q4, q5, q6,
      hb1, hb2, hb3, hb4, hb5, hb6]
  | false =>
  cases hb7 : exitKws.any (fun k => hasSub k (pyNormalize text)) with
  | true =>
    simp [VALID_COMMANDS, tagOrder, List.find?, List.filter, q1, q2, q3, q4, q5, q6, q7,
      hb1, hb2, hb3, hb4, hb5, hb6, hb7]
  | false =>
    exfalso
    rcases hmem with rfl | rfl | rfl | rfl | rfl | rfl | rfl <;> simp_all

/-- Claim C5 (witness): `"hanuman exit"` contains triggers of both `wake` and
`exit`; the returned tag is `wake`, the first in declaration order. -/
theorem C5_first_declaration_order_witness :
    (hasTriggerSub "wake" "hanuman exit".toList = true ∧
     hasTriggerSub "exit" "hanuman exit".toList = true ∧
     (tagOrder.filter (fun tg => hasTriggerSub tg "hanuman exit".toList)).head?
       = some "wake") ∧
    identify_command "hanuman exit".toList =
      ((tagOrder.filter (fun tg => hasTriggerSub tg "hanuman exit".toList)).head?, 1) :=
  ⟨⟨by decide, by decide, by decide⟩,
   C5_first_declaration_order "hanuman exit".toList
     ⟨"wake", "exit", by decide, by decide, by decide⟩⟩

/-- Claim C9 (witness): status 500 from the primary, with the secondary
succeeding and failing respectively. -/
theorem C9_tts_fallback_witness :
    elevenFailed (ElevenOutcome.response 500) = true ∧
    generate_tts 11 12 (ElevenOutcome.response 500) true = some (edge_path 12) ∧
    generate_tts 11 12 (ElevenOutcome.response 500) false = none :=
  ⟨by decide,
   (C9_tts_fallback 11 12 (ElevenOutcome.response 500) true (by decide)).1 rfl,
   (C9_tts_fallback 11 12 (ElevenOutcome.response 500) false (by decide)).2 rfl⟩

end Hanuman
